import Mathlib

/-!
A verification development for the GPflow excerpt consisting of
`gpflow/misc.py` (type/value predicates, the numeric-type normalizer,
the vector-to-lower-triangular packer `vec_to_tri`) and
`gpflow/models/sgpmc.py` (the SGPMC sparse variational GP model).

Python runtime values, numpy dtypes, and TensorFlow tensors are modelled
by inductive types; external collaborators (the `conditional` routine,
the likelihood's `variational_expectations`, the mean function, the
inducing-point feature) are universally quantified functions, so the
theorems hold for every behaviour of those collaborators.  Numeric
entries are modelled as integers: every claim below is structural
(which positions are filled, what is summed, what is returned) rather
than about floating-point rounding.
-/

namespace GPflow

/-! ## Model of Python runtime values (for the `misc.py` predicates)

A `PyValue` classifies a Python value by the type tests that
`misc.py` performs: `None`, strings, numbers (`int` / `float` /
`bool` / `complex`), numpy arrays, TensorFlow tensors and variables,
and Python lists.  Payloads irrelevant to the predicates are omitted.
-/

inductive PyValue where
  | none
  | str (s : String)
  | int (n : Int)
  | float (n : Int)
  | bool (b : Bool)
  | complex
  | ndarray
  | tensor
  | tfVariable
  | list (l : List PyValue)

/-- `value is None`. -/
def isNone : PyValue → Bool
  | .none => true
  | _ => false

/-- `is_ndarray(value)`: `isinstance(value, np.ndarray)`. -/
def is_ndarray : PyValue → Bool
  | .ndarray => true
  | _ => false

/-- `is_list(value)`: `isinstance(value, list)`. -/
def is_list : PyValue → Bool
  | .list _ => true
  | _ => false

/-- `is_tensor(value)`: `isinstance(value, (tf.Tensor, tf.Variable))`. -/
def is_tensor : PyValue → Bool
  | .tensor => true
  | .tfVariable => true
  | _ => false

/-- `isinstance(value, str)`. -/
def isinstance_str : PyValue → Bool
  | .str _ => true
  | _ => false

/-- `np.isscalar(value)`: true for Python ints, floats, bools, complex
numbers and strings; false for `None`, arrays, tensors and lists. -/
def np_isscalar : PyValue → Bool
  | .int _ => true
  | .float _ => true
  | .bool _ => true
  | .complex => true
  | .str _ => true
  | _ => false

/-- `is_number(value)`: `(not isinstance(value, str)) and np.isscalar(value)`. -/
def is_number (value : PyValue) : Bool :=
  (!isinstance_str value) && np_isscalar value

/-- `isinstance(value, (float, int))` — in Python, `bool` is a subclass
of `int`, so booleans also pass this test. -/
def isinstance_scalars : PyValue → Bool
  | .int _ => true
  | .float _ => true
  | .bool _ => true
  | _ => false

/-- `isinstance(value, (list, np.ndarray))`. -/
def isinstance_arrays : PyValue → Bool
  | .list _ => true
  | .ndarray => true
  | _ => false

/-- `is_valid_param_value(value)` from `gpflow/misc.py`, translated
clause by clause.  The final return keeps the Python operator
precedence: `((value is not None) and is_number(value)) or
is_ndarray(value) or is_tensor(value)`. -/
def is_valid_param_value (value : PyValue) : Bool :=
  match value with
  | .list l =>
    match l with
    | [] => false
    | zero_val :: rest =>
      if isinstance_scalars zero_val then
        rest.all (fun val => isinstance_scalars val)
      else if isinstance_arrays zero_val then
        rest.all (fun val => isinstance_arrays val)
      else false
  | v =>
    ((!isNone v) && is_number v) || is_ndarray v || is_tensor v

/-! ## Model of numeric dtypes (for `normalize_num_type`) -/

/-- The native numpy numeric types that `normalize_num_type` can
receive (a representative selection: the accepted floats and signed
ints, plus rejected types such as `float16`, `int8`, complex types and
booleans). -/
inductive NumType where
  | float16
  | float32
  | float64
  | int8
  | int16
  | int32
  | int64
  | complex64
  | complex128
  | npBool
deriving DecidableEq

/-- The printed name of a numpy type, as it appears inside the
formatted error message. -/
def numTypeName : NumType → String
  | .float16 => "float16"
  | .float32 => "float32"
  | .float64 => "float64"
  | .int8 => "int8"
  | .int16 => "int16"
  | .int32 => "int32"
  | .int64 => "int64"
  | .complex64 => "complex64"
  | .complex128 => "complex128"
  | .npBool => "bool"

/-- A dtype descriptor as passed to `normalize_num_type`: either a
native numpy type or a TensorFlow `DType` wrapper around one
(`num_type.as_numpy_dtype.type` recovers the native type). -/
inductive DTypeDescr where
  | native (t : NumType)
  | tfWrapped (t : NumType)
deriving DecidableEq

/-- `num_type.as_numpy_dtype.type` unwrapping step of
`normalize_num_type`: a TensorFlow dtype handle is replaced by its
underlying native numeric type; a native type passes through. -/
def unwrapDType : DTypeDescr → NumType
  | .native t => t
  | .tfWrapped t => t

/-- `normalize_num_type` from `gpflow/misc.py`: unwrap a TF dtype
handle, then map 32/64-bit floats to the configured `float_type`,
16/32/64-bit signed ints to the configured `int_type`, and raise
`ValueError('Unknown dtype "{0}" passed to normalizer.'.format(num_type))`
otherwise.  The two `settings` fields are passed explicitly. -/
def normalize_num_type (float_type int_type : NumType) (num_type0 : DTypeDescr) :
    Except String NumType :=
  let num_type := unwrapDType num_type0
  if num_type = NumType.float32 ∨ num_type = NumType.float64 then
    Except.ok float_type
  else if num_type = NumType.int16 ∨ num_type = NumType.int32 ∨ num_type = NumType.int64 then
    Except.ok int_type
  else
    Except.error ("Unknown dtype \"" ++ numTypeName num_type ++ "\" passed to normalizer.")

/-! ## `vec_to_tri`

Matrices are `List (List Int)`.  `tril_indices N` is
`np.tril_indices(N)` as a list of (row, col) pairs, in numpy's
row-major mask order; `scatter_nd` is `tf.scatter_nd` on an `[N, N]`
zero-initialized tensor (its documented semantics: each output entry
is the sum of the updates whose index equals that position — duplicate
indices accumulate); `vec_to_tri` maps the per-vector scatter over the
batch, as `tf.map_fn` does. -/

/-- `np.tril_indices(N)` zipped into (row, col) pairs: rows `0..N-1`,
and within row `i` the columns `0..i`, i.e. row-major order over the
lower-triangular mask. -/
def tril_indices (N : Nat) : List (Nat × Nat) :=
  (List.range N).flatMap (fun i => (List.range (i + 1)).map (fun j => (i, j)))

/-- Sum of the updates attached to a given index, over a list of
(index, update) pairs. -/
def idxSum (ps : List ((Nat × Nat) × Int)) (q : Nat × Nat) : Int :=
  ps.foldr (fun p acc => (if p.1 = q then p.2 else 0) + acc) 0

/-- `tf.scatter_nd(indices, updates, shape=[N, N])`: a zero tensor
with each update added at its index (duplicates accumulate); extra
indices or updates beyond the shorter of the two lists are ignored by
the zip, matching the requirement that they have equal leading
dimension. -/
def scatter_nd (indices : List (Nat × Nat)) (N : Nat) (updates : List Int) :
    List (List Int) :=
  (List.range N).map (fun i =>
    (List.range N).map (fun j => idxSum (indices.zip updates) (i, j)))

/-- The inner `vec_to_tri_vector` closure of `vec_to_tri`. -/
def vec_to_tri_vector (N : Nat) (vector : List Int) : List (List Int) :=
  scatter_nd (tril_indices N) N vector

/-- `vec_to_tri(vectors, N)` from `gpflow/misc.py`:
`tf.map_fn(vec_to_tri_vector, vectors)` with the `tril_indices`
constant shared across the batch. -/
def vec_to_tri (vectors : List (List Int)) (N : Nat) : List (List (List Int)) :=
  vectors.map (fun vector => vec_to_tri_vector N vector)

/-- The triangular number `0 + 1 + ⋯ + n = n (n+1) / 2`: the number of
lower-triangular positions of an `n × n` matrix. -/
def triNum : Nat → Nat
  | 0 => 0
  | n + 1 => triNum n + (n + 1)

/-- Entry `(i, j)` of a matrix represented as a list of rows
(out-of-range reads give `0`, matching a total model of indexing). -/
def entry (m : List (List Int)) (i j : Nat) : Int :=
  (m.getD i []).getD j 0

/-- Read back the lower-triangular entries of a matrix in
`tril_indices` order. -/
def readTril (N : Nat) (m : List (List Int)) : List Int :=
  (tril_indices N).map (fun p => entry m p.1 p.2)

/-! ## SGPMC (`gpflow/models/sgpmc.py`)

Tensors are integer matrices (`Mat`).  The kernel, likelihood,
mean-function and inducing-feature collaborators are abstract values
of type parameters `K`, `Lik`, `MF`, `Feat`; the external routines
that consume them — `conditional`, `likelihood.variational_expectations`,
applying the mean function, `len(feature)` — are passed as explicit
function arguments and universally quantified in every theorem. -/

abbrev Mat := List (List Int)

/-- Elementwise matrix addition (`mu + self.mean_function(Xnew)` for
two same-shaped `N × L` tensors). -/
def matAdd (a b : Mat) : Mat :=
  List.zipWith (fun r s => List.zipWith (fun x y => x + y) r s) a b

/-- `tf.reduce_sum` over all entries of a matrix. -/
def reduce_sum (m : Mat) : Int :=
  (m.map (fun row => row.sum)).sum

/-- `np.zeros((m, n))`. -/
def zerosMat (m n : Nat) : Mat :=
  List.replicate m (List.replicate n 0)

/-- The `Gaussian(mu, var)` prior object of `gpflow/priors.py`
(only its two constructor arguments matter here). -/
structure GaussianPrior where
  mu : Int
  var : Int
deriving DecidableEq

/-- A `gpflow.params.Parameter`: a named value with an assignable
`.prior` attribute (modelled by the fields this excerpt touches). -/
structure Parameter where
  value : Mat
  name : String
  prior : Option GaussianPrior
deriving DecidableEq

/-- The SGPMC model state after construction: the fields of
`GPModel.__init__` that `sgpmc.py` reads (`X`, `Y`, `kern`,
`likelihood`, `mean_function`) plus the fields `SGPMC.__init__`
assigns (`num_data`, `num_latent`, `feature`, `_V`, `_parameters`). -/
structure SGPMC (Feat K Lik MF : Type) where
  X : Mat
  Y : Mat
  kern : K
  likelihood : Lik
  mean_function : MF
  num_data : Nat
  num_latent : Nat
  feature : Feat
  V_param : Parameter
  parameters : List Parameter

/-- `SGPMC.__init__`.  `GPModel.__init__` (external) stores the data
and collaborators and provides the initial `self._parameters` list
(`base_parameters`); `inducingpoint_wrapper(feat, Z)` (external) is
represented by the wrapped feature `feat` together with its length
function `lenFeat` (`len(self.feature)`).  The body then sets
`num_data = X.shape[0]`, `num_latent = num_latent or Y.shape[1]`
(Python `or`: the override is kept only when truthy, i.e. nonzero),
allocates `V = Parameter(np.zeros((len(feature), num_latent)), name='V')`,
sets `V.prior = Gaussian(0., 1.)`, and appends `V` to
`self._parameters`. -/
def SGPMC.init {Feat K Lik MF : Type} (X Y : Mat) (kern : K) (likelihood : Lik)
    (mean_function : MF) (feat : Feat) (lenFeat : Feat → Nat)
    (num_latent : Option Nat) (base_parameters : List Parameter) :
    SGPMC Feat K Lik MF :=
  let nl : Nat :=
    match num_latent with
    | Option.none => (Y.headD []).length
    | Option.some n => if n = 0 then (Y.headD []).length else n
  let V0 : Parameter :=
    { value := zerosMat (lenFeat feat) nl, name := "V",
      prior := Option.some { mu := 0, var := 1 } }
  { X := X, Y := Y, kern := kern, likelihood := likelihood,
    mean_function := mean_function,
    num_data := X.length, num_latent := nl, feature := feat,
    V_param := V0, parameters := base_parameters ++ [V0] }

/-- The `V` property: the current numeric value of the latent
parameter. -/
def SGPMC.V {Feat K Lik MF : Type} (m : SGPMC Feat K Lik MF) : Mat :=
  m.V_param.value

/-- `SGPMC._build_predict(Xnew, full_cov)`: call the external
`conditional(self.feature, self.kern, Xnew, self.V, full_cov=full_cov,
q_sqrt=None, white=True)` and return
`(mu + self.mean_function(Xnew), var)`.  `conditional` and the
application of the mean function object are passed as explicit
functions. -/
def SGPMC.build_predict {Feat K Lik MF : Type}
    (conditional : Feat → K → Mat → Mat → Bool → Option Mat → Bool → Mat × Mat)
    (apply_mf : MF → Mat → Mat)
    (m : SGPMC Feat K Lik MF) (Xnew : Mat) (full_cov : Bool) : Mat × Mat :=
  let muvar := conditional m.feature m.kern Xnew (SGPMC.V m) full_cov Option.none true
  (matAdd muvar.1 (apply_mf m.mean_function Xnew), muvar.2)

/-- `SGPMC._build_likelihood()`: `fmean, fvar =
self._build_predict(self.X, full_cov=False)` followed by
`tf.reduce_sum(self.likelihood.variational_expectations(fmean, fvar,
self.Y))`.  The likelihood's `variational_expectations` method is the
explicit function `ve`. -/
def SGPMC.build_likelihood {Feat K Lik MF : Type}
    (conditional : Feat → K → Mat → Mat → Bool → Option Mat → Bool → Mat × Mat)
    (apply_mf : MF → Mat → Mat) (ve : Lik → Mat → Mat → Mat → Mat)
    (m : SGPMC Feat K Lik MF) : Int :=
  let fmv := SGPMC.build_predict conditional apply_mf m m.X false
  reduce_sum (ve m.likelihood fmv.1 fmv.2 m.Y)

/-- A call of the likelihood computation threaded through the model
state: the method reads the state and returns it unchanged (the body
of `_build_likelihood` contains no assignment to `self`). -/
def SGPMC.compute_likelihood_call {Feat K Lik MF : Type}
    (conditional : Feat → K → Mat → Mat → Bool → Option Mat → Bool → Mat × Mat)
    (apply_mf : MF → Mat → Mat) (ve : Lik → Mat → Mat → Mat → Mat)
    (m : SGPMC Feat K Lik MF) : Int × SGPMC Feat K Lik MF :=
  (SGPMC.build_likelihood conditional apply_mf ve m, m)

/-! ### Concrete collaborator instances

Closed instances used to evaluate the SGPMC theorems on concrete
inputs: a conditional returning fixed mean/variance matrices, a
constant mean function, a variational-expectations function returning
its mean argument, and a small constructed model. -/

def condTest : Unit → Unit → Mat → Mat → Bool → Option Mat → Bool → Mat × Mat :=
  fun _ _ _ _ _ _ _ => ([[2]], [[5]])

def mfTest : Unit → Mat → Mat :=
  fun _ _ => [[7]]

def veTest : Unit → Mat → Mat → Mat → Mat :=
  fun _ fmean _ _ => fmean

def sgpmcTest : SGPMC Unit Unit Unit Unit :=
  SGPMC.init [[1]] [[1]] () () () () (fun _ => 1) Option.none []

/-! ## Theorems -/

/-- Entry `(i, j)` of an elementwise matrix sum is the sum of the
entries, at every in-range position of both operands. -/
theorem matAdd_entry (a b : Mat) (i j : Nat) (hia : i < a.length) (hib : i < b.length)
    (hja : j < (a.getD i []).length) (hjb : j < (b.getD i []).length) :
    entry (matAdd a b) i j = entry a i j + entry b i j := by
  rw [List.getD_eq_getElem a [] hia] at hja
  rw [List.getD_eq_getElem b [] hib] at hjb
  have hi : i < (matAdd a b).length := by
    simp only [matAdd, List.length_zipWith]
    omega
  have hj : j < ((matAdd a b).getD i []).length := by
    rw [List.getD_eq_getElem _ [] hi]
    simp only [matAdd, List.getElem_zipWith, List.length_zipWith]
    omega
  rw [entry, entry, entry, List.getD_eq_getElem _ [] hi,
    List.getD_eq_getElem _ [] hia, List.getD_eq_getElem _ [] hib]
  rw [List.getD_eq_getElem _ [] hi] at hj
  rw [List.getD_eq_getElem _ 0 hj]
  simp only [matAdd, List.getElem_zipWith] at hj ⊢
  simp only [List.length_zipWith] at hj
  rw [List.getD_eq_getElem _ 0 hja, List.getD_eq_getElem _ 0 hjb]

/-- The sum of a list equals the sum of its `getD` reads over
`range length`. -/
theorem list_sum_eq_range_getD (row : List Int) :
    row.sum = ∑ j ∈ Finset.range row.length, row.getD j 0 := by
  induction row with
  | nil => simp
  | cons x xs ih =>
    rw [List.sum_cons, List.length_cons, Finset.sum_range_succ']
    simp only [List.getD_cons_succ, List.getD_cons_zero]
    rw [← ih]
    omega

theorem reduce_sum_cons (r : List Int) (m : Mat) :
    reduce_sum (r :: m) = r.sum + reduce_sum m := by
  simp [reduce_sum]

/-- `reduce_sum` of a rectangular matrix is the double sum of its
entries over row and column indices. -/
theorem reduce_sum_eq_double_sum (m : Mat) (L : Nat)
    (hL : ∀ row ∈ m, row.length = L) :
    reduce_sum m = ∑ i ∈ Finset.range m.length, ∑ j ∈ Finset.range L, entry m i j := by
  induction m with
  | nil => simp [reduce_sum]
  | cons r m ih =>
    have hr : r.length = L := hL r (List.mem_cons_self r m)
    subst hr
    rw [reduce_sum_cons, List.length_cons, Finset.sum_range_succ']
    have hstep : (∑ i ∈ Finset.range m.length,
          ∑ j ∈ Finset.range r.length, entry (r :: m) (i + 1) j)
        = ∑ i ∈ Finset.range m.length, ∑ j ∈ Finset.range r.length, entry m i j := rfl
    have h0 : (∑ j ∈ Finset.range r.length, entry (r :: m) 0 j) = r.sum :=
      (list_sum_eq_range_getD r).symm
    rw [hstep, h0, ← ih (fun row hrow => hL row (List.mem_cons_of_mem r hrow))]
    omega

/-! ### Arithmetic and list helpers for `vec_to_tri` -/

theorem two_mul_triNum (n : Nat) : 2 * triNum n = n * (n + 1) := by
  induction n with
  | zero => rfl
  | succ k ih =>
    simp only [triNum]
    rw [Nat.mul_add, ih]
    ring

theorem triNum_eq_div (n : Nat) : triNum n = n * (n + 1) / 2 := by
  have h := two_mul_triNum n
  generalize hm : n * (n + 1) = m at h ⊢
  omega

theorem triNum_mono {i N : Nat} (h : i ≤ N) : triNum i ≤ triNum N := by
  induction N with
  | zero =>
    have hi : i = 0 := Nat.le_zero.mp h
    subst hi
    exact Nat.le_refl _
  | succ n ih =>
    rcases Nat.lt_or_ge i (n + 1) with h1 | h2
    · exact Nat.le_trans (ih (Nat.lt_succ_iff.mp h1)) (by simp only [triNum]; omega)
    · have hi : i = n + 1 := Nat.le_antisymm h h2
      subst hi
      exact Nat.le_refl _

theorem getD_take_of_lt (w : List Int) (k j : Nat) (h : j < k) :
    (w.take k).getD j 0 = w.getD j 0 := by
  simp [List.getD_eq_getElem?_getD, List.getElem?_take, h]

theorem getD_drop_add (w : List Int) (k j : Nat) :
    (w.drop k).getD j 0 = w.getD (k + j) 0 := by
  simp [List.getD_eq_getElem?_getD, List.getElem?_drop]

theorem getD_range_map {α : Type} (N : Nat) (f : Nat → α) (d : α) (i : Nat)
    (hi : i < N) : ((List.range N).map f).getD i d = f i := by
  rw [List.getD_eq_getElem _ _ (by simpa using hi)]
  simp

theorem getD_map_of_lt {α β : Type} (f : α → β) (l : List α) (d : Nat) (d1 : β)
    (d2 : α) (h : d < l.length) : (l.map f).getD d d1 = f (l.getD d d2) := by
  rw [List.getD_eq_getElem _ _ (by simpa using h), List.getD_eq_getElem _ _ h,
    List.getElem_map]

theorem tril_indices_succ (N : Nat) :
    tril_indices (N + 1)
      = tril_indices N ++ (List.range (N + 1)).map (fun j => (N, j)) := by
  simp [tril_indices, List.range_succ]

theorem tril_indices_length (N : Nat) : (tril_indices N).length = triNum N := by
  induction N with
  | zero => rfl
  | succ n ih =>
    rw [tril_indices_succ]
    simp [ih, triNum]

theorem mem_tril_indices {N : Nat} {p : Nat × Nat} (h : p ∈ tril_indices N) :
    p.2 ≤ p.1 ∧ p.1 < N := by
  simp only [tril_indices, List.mem_flatMap, List.mem_map, List.mem_range] at h
  obtain ⟨i, hi, j, hj, rfl⟩ := h
  exact ⟨Nat.lt_succ_iff.mp hj, hi⟩

theorem idxSum_nil (q : Nat × Nat) : idxSum [] q = 0 := rfl

theorem idxSum_cons (p : (Nat × Nat) × Int) (ps : List ((Nat × Nat) × Int))
    (q : Nat × Nat) : idxSum (p :: ps) q = (if p.1 = q then p.2 else 0) + idxSum ps q :=
  rfl

theorem idxSum_append (a b : List ((Nat × Nat) × Int)) (q : Nat × Nat) :
    idxSum (a ++ b) q = idxSum a q + idxSum b q := by
  induction a with
  | nil => simp [idxSum]
  | cons p a ih =>
    rw [List.cons_append, idxSum_cons, idxSum_cons, ih]
    omega

/-- The scatter sum over one row block of indices `(r, s), (r, s+1), …,
(r, s+k-1)` zipped with updates `w`: it reads `w` at the column offset
when the query lies in the block, and vanishes otherwise. -/
theorem idxSum_row (k : Nat) : ∀ (r s : Nat) (w : List Int) (i j : Nat),
    k ≤ w.length →
    idxSum (((List.range k).map (fun t => (r, t + s))).zip w) (i, j)
      = if i = r ∧ s ≤ j ∧ j < k + s then w.getD (j - s) 0 else 0 := by
  induction k with
  | zero =>
    intro r s w i j _
    rw [if_neg (by omega)]
    rfl
  | succ n ih =>
    intro r s w i j hk
    cases w with
    | nil => simp at hk
    | cons c w' =>
      rw [List.range_succ_eq_map, List.map_cons, List.map_map]
      have hcomp : ((fun t => ((r : Nat), t + s)) ∘ Nat.succ)
          = (fun t => (r, t + (s + 1))) := by
        funext t
        exact congrArg (fun x => ((r : Nat), x)) (by omega)
      rw [hcomp, List.zip_cons_cons, idxSum_cons,
        ih r (s + 1) w' i j (by simpa using Nat.lt_succ_iff.mp (Nat.lt_succ_of_le hk))]
      simp only [Prod.mk.injEq, Nat.zero_add]
      by_cases hir : i = r
      · subst hir
        by_cases hjs : j = s
        · subst hjs
          rw [if_pos (show (i : Nat) = i ∧ j = j from ⟨rfl, rfl⟩),
            if_neg (show ¬((i : Nat) = i ∧ j + 1 ≤ j ∧ j < n + (j + 1)) by omega),
            if_pos (show (i : Nat) = i ∧ j ≤ j ∧ j < n + 1 + j from ⟨rfl, by omega, by omega⟩)]
          simp
        · by_cases hin : s + 1 ≤ j ∧ j < n + (s + 1)
          · rw [if_neg (show ¬((i : Nat) = i ∧ s = j) by omega),
              if_pos (show ((i : Nat) = i ∧ s + 1 ≤ j ∧ j < n + (s + 1)) from
                ⟨rfl, hin.1, hin.2⟩),
              if_pos (show (i : Nat) = i ∧ s ≤ j ∧ j < n + 1 + s from
                ⟨rfl, by omega, by omega⟩)]
            have hsub : j - s = (j - s - 1) + 1 := by omega
            rw [hsub, List.getD_cons_succ]
            have hsub2 : j - s - 1 = j - (s + 1) := by omega
            rw [hsub2]
            omega
          · rw [if_neg (show ¬((i : Nat) = i ∧ s = j) by omega),
              if_neg (show ¬((i : Nat) = i ∧ s + 1 ≤ j ∧ j < n + (s + 1)) by omega),
              if_neg (show ¬((i : Nat) = i ∧ s ≤ j ∧ j < n + 1 + s) by omega)]
            omega
      · rw [if_neg (show ¬(r = i ∧ s = j) by omega),
          if_neg (show ¬(i = r ∧ s + 1 ≤ j ∧ j < n + (s + 1)) by omega),
          if_neg (show ¬(i = r ∧ s ≤ j ∧ j < n + 1 + s) by omega)]
        omega

theorem idxSum_row_zero (k r : Nat) (w : List Int) (i j : Nat) (hk : k ≤ w.length) :
    idxSum (((List.range k).map (fun t => (r, t))).zip w) (i, j)
      = if i = r ∧ j < k then w.getD j 0 else 0 := by
  have h := idxSum_row k r 0 w i j hk
  simp only [Nat.add_zero, Nat.sub_zero, Nat.zero_le, true_and] at h
  exact h

/-- The scatter sum over the full lower-triangular index list: with a
vector of at least `triNum N` entries, the value at `(i, j)` is the
vector entry at rank `triNum i + j` inside the triangle, and `0`
outside it. -/
theorem idxSum_tril (N : Nat) : ∀ (v : List Int) (i j : Nat),
    triNum N ≤ v.length →
    idxSum ((tril_indices N).zip v) (i, j)
      = if j ≤ i ∧ i < N then v.getD (triNum i + j) 0 else 0 := by
  induction N with
  | zero =>
    intro v i j _
    rw [if_neg (by omega)]
    rfl
  | succ n ih =>
    intro v i j hv
    have hv' : triNum n + (n + 1) ≤ v.length := hv
    have hsplit : ((tril_indices n
          ++ (List.range (n + 1)).map (fun t => (n, t))).zip v)
        = (tril_indices n).zip (v.take (triNum n))
          ++ ((List.range (n + 1)).map (fun t => (n, t))).zip (v.drop (triNum n)) := by
      conv_lhs => rw [← List.take_append_drop (triNum n) v]
      exact List.zip_append
        (by rw [List.length_take, tril_indices_length]; omega)
    rw [tril_indices_succ, hsplit, idxSum_append,
      ih (v.take (triNum n)) i j (by rw [List.length_take]; omega),
      idxSum_row_zero (n + 1) n (v.drop (triNum n)) i j
        (by rw [List.length_drop]; omega)]
    by_cases h1 : j ≤ i ∧ i < n
    · obtain ⟨hji, hin⟩ := h1
      have h2 : triNum (i + 1) ≤ triNum n := triNum_mono hin
      simp only [triNum] at h2
      have hlt : triNum i + j < triNum n := by omega
      rw [if_pos (show j ≤ i ∧ i < n from ⟨hji, hin⟩),
        if_neg (show ¬(i = n ∧ j < n + 1) by omega),
        if_pos (show j ≤ i ∧ i < n + 1 from ⟨hji, by omega⟩),
        getD_take_of_lt _ _ _ hlt]
      omega
    · rw [if_neg h1]
      by_cases h2 : i = n ∧ j < n + 1
      · obtain ⟨hin, hj⟩ := h2
        rw [if_pos (show i = n ∧ j < n + 1 from ⟨hin, hj⟩),
          if_pos (show j ≤ i ∧ i < n + 1 from ⟨by omega, by omega⟩),
          getD_drop_add, hin]
        omega
      · rw [if_neg h2, if_neg (show ¬(j ≤ i ∧ i < n + 1) by omega)]
        omega

/-- Entry characterization of the single-vector packer: inside the
lower triangle the entry is the vector element at the row-major rank
`triNum i + j`; elsewhere it is zero. -/
theorem vec_to_tri_vector_entry (N : Nat) (v : List Int) (i j : Nat)
    (hi : i < N) (hj : j < N) (hv : triNum N ≤ v.length) :
    entry (vec_to_tri_vector N v) i j
      = if j ≤ i then v.getD (triNum i + j) 0 else 0 := by
  rw [entry, vec_to_tri_vector, scatter_nd, getD_range_map N _ _ i hi,
    getD_range_map N _ _ j hj, idxSum_tril N v i j hv]
  by_cases h : j ≤ i
  · rw [if_pos ⟨h, hi⟩, if_pos h]
  · rw [if_neg (by omega), if_neg h]

theorem vec_to_tri_vector_shape (N : Nat) (v : List Int) :
    (vec_to_tri_vector N v).length = N ∧
    ∀ row ∈ vec_to_tri_vector N v, row.length = N := by
  constructor
  · simp [vec_to_tri_vector, scatter_nd]
  · intro row hrow
    simp only [vec_to_tri_vector, scatter_nd, List.mem_map] at hrow
    obtain ⟨a, _, rfl⟩ := hrow
    simp

theorem tril_indices_ranks (N : Nat) :
    (tril_indices N).map (fun p => triNum p.1 + p.2) = List.range (triNum N) := by
  induction N with
  | zero => rfl
  | succ n ih =>
    rw [tril_indices_succ, List.map_append, ih, List.map_map,
      show triNum (n + 1) = triNum n + (n + 1) from rfl,
      List.range_add (triNum n) (n + 1)]
    rfl

theorem map_getD_range (v : List Int) :
    (List.range v.length).map (fun k => v.getD k 0) = v := by
  induction v with
  | nil => rfl
  | cons x xs ih =>
    rw [List.length_cons, List.range_succ_eq_map, List.map_cons, List.map_map,
      show ((fun k => (x :: xs).getD k 0) ∘ Nat.succ) = (fun k => xs.getD k 0)
        from rfl,
      ih]
    rfl

/-- C5: for a batch of vectors of length `N (N+1) / 2`, `vec_to_tri`
stacks, in input order, one `N × N` matrix per vector, where each
matrix scatters its vector into the lower-triangular positions in
row-major `tril_indices` order (entry `(i, j)` with `j ≤ i` holds
vector element `i (i+1) / 2 + j`) and every other position is zero; in
particular, for `N = 3` and the single vector `[1,2,3,4,5,6]` the
result is `[[1,0,0],[2,3,0],[4,5,6]]`. -/
theorem vec_to_tri_spec (N : Nat) (vectors : List (List Int))
    (hlen : ∀ v ∈ vectors, v.length = N * (N + 1) / 2) :
    (vec_to_tri vectors N).length = vectors.length ∧
    (∀ d, d < vectors.length →
      ((vec_to_tri vectors N).getD d []).length = N ∧
      (∀ row ∈ (vec_to_tri vectors N).getD d [], row.length = N) ∧
      (∀ i j, i < N → j < N →
        entry ((vec_to_tri vectors N).getD d []) i j
          = if j ≤ i then (vectors.getD d []).getD (i * (i + 1) / 2 + j) 0
            else 0)) ∧
    vec_to_tri [[1, 2, 3, 4, 5, 6]] 3 = [[[1, 0, 0], [2, 3, 0], [4, 5, 6]]] := by
  refine ⟨by simp [vec_to_tri], ?_, by decide⟩
  intro d hd
  have hget : (vec_to_tri vectors N).getD d []
      = vec_to_tri_vector N (vectors.getD d []) := by
    rw [vec_to_tri, getD_map_of_lt _ _ _ _ [] hd]
  have hvmem : vectors.getD d [] ∈ vectors := by
    rw [List.getD_eq_getElem _ _ hd]
    exact List.getElem_mem hd
  have hvlen : triNum N ≤ (vectors.getD d []).length := by
    rw [hlen _ hvmem, ← triNum_eq_div]
  rw [hget]
  refine ⟨(vec_to_tri_vector_shape N _).1, (vec_to_tri_vector_shape N _).2, ?_⟩
  intro i j hi hj
  rw [vec_to_tri_vector_entry N _ i j hi hj hvlen, triNum_eq_div i]

theorem vec_to_tri_spec_witness :
    (vec_to_tri [[1, 2, 3, 4, 5, 6]] 3).length = 1 ∧
    vec_to_tri [[1, 2, 3, 4, 5, 6]] 3 = [[[1, 0, 0], [2, 3, 0], [4, 5, 6]]] :=
  ⟨(vec_to_tri_spec 3 [[1, 2, 3, 4, 5, 6]] (by decide)).1,
   (vec_to_tri_spec 3 [[1, 2, 3, 4, 5, 6]] (by decide)).2.2⟩

/-- C6: round-trip identity — reading back the lower-triangular
entries of `vec_to_tri_vector N v` in `tril_indices` order reproduces
the input vector exactly, for every vector of the valid length
`N (N+1) / 2` (so `vec_to_tri` is injective on valid inputs up to its
lower triangle). -/
theorem vec_to_tri_roundtrip (N : Nat) (v : List Int)
    (hv : v.length = N * (N + 1) / 2) :
    readTril N (vec_to_tri_vector N v) = v := by
  have hv' : v.length = triNum N := by rw [hv, triNum_eq_div]
  rw [readTril]
  have hmap : ∀ p ∈ tril_indices N,
      entry (vec_to_tri_vector N v) p.1 p.2 = v.getD (triNum p.1 + p.2) 0 := by
    intro p hp
    obtain ⟨hji, hiN⟩ := mem_tril_indices hp
    rw [vec_to_tri_vector_entry N v p.1 p.2 hiN (by omega) (le_of_eq hv'.symm),
      if_pos hji]
  rw [List.map_congr_left hmap,
    show (fun p : Nat × Nat => v.getD (triNum p.1 + p.2) 0)
      = (fun k => v.getD k 0) ∘ (fun p : Nat × Nat => triNum p.1 + p.2) from rfl,
    ← List.map_map, tril_indices_ranks, ← hv', map_getD_range]

theorem vec_to_tri_roundtrip_witness :
    readTril 3 (vec_to_tri_vector 3 [1, 2, 3, 4, 5, 6]) = [1, 2, 3, 4, 5, 6] :=
  vec_to_tri_roundtrip 3 [1, 2, 3, 4, 5, 6] (by decide)

/-- C1: `_build_predict(Xnew, full_cov)` invokes the external
`conditional` with arguments `(feature, kern, Xnew, V, full_cov,
q_sqrt=None, white=True)`, returns the conditional's variance exactly
(unmodified by the mean function), and returns as mean the
conditional's mean plus `mean_function(Xnew)` — elementwise, as the
entry equation shows at every in-range position. -/
theorem build_predict_spec {Feat K Lik MF : Type}
    (conditional : Feat → K → Mat → Mat → Bool → Option Mat → Bool → Mat × Mat)
    (apply_mf : MF → Mat → Mat) (m : SGPMC Feat K Lik MF) (Xnew : Mat)
    (full_cov : Bool) (i j : Nat)
    (hi1 : i < (conditional m.feature m.kern Xnew (SGPMC.V m) full_cov
        Option.none true).1.length)
    (hi2 : i < (apply_mf m.mean_function Xnew).length)
    (hj1 : j < ((conditional m.feature m.kern Xnew (SGPMC.V m) full_cov
        Option.none true).1.getD i []).length)
    (hj2 : j < ((apply_mf m.mean_function Xnew).getD i []).length) :
    (SGPMC.build_predict conditional apply_mf m Xnew full_cov).2 =
      (conditional m.feature m.kern Xnew (SGPMC.V m) full_cov Option.none true).2 ∧
    (SGPMC.build_predict conditional apply_mf m Xnew full_cov).1 =
      matAdd (conditional m.feature m.kern Xnew (SGPMC.V m) full_cov Option.none true).1
        (apply_mf m.mean_function Xnew) ∧
    entry (SGPMC.build_predict conditional apply_mf m Xnew full_cov).1 i j =
      entry (conditional m.feature m.kern Xnew (SGPMC.V m) full_cov
          Option.none true).1 i j +
        entry (apply_mf m.mean_function Xnew) i j :=
  ⟨rfl, rfl, matAdd_entry _ _ i j hi1 hi2 hj1 hj2⟩

theorem build_predict_spec_witness :
    (SGPMC.build_predict condTest mfTest sgpmcTest [[3]] false).2 =
      (condTest sgpmcTest.feature sgpmcTest.kern [[3]] (SGPMC.V sgpmcTest) false
        Option.none true).2 ∧
    (SGPMC.build_predict condTest mfTest sgpmcTest [[3]] false).1 =
      matAdd (condTest sgpmcTest.feature sgpmcTest.kern [[3]] (SGPMC.V sgpmcTest) false
          Option.none true).1
        (mfTest sgpmcTest.mean_function [[3]]) ∧
    entry (SGPMC.build_predict condTest mfTest sgpmcTest [[3]] false).1 0 0 =
      entry (condTest sgpmcTest.feature sgpmcTest.kern [[3]] (SGPMC.V sgpmcTest) false
          Option.none true).1 0 0 +
        entry (mfTest sgpmcTest.mean_function [[3]]) 0 0 :=
  build_predict_spec condTest mfTest sgpmcTest [[3]] false 0 0
    (by decide) (by decide) (by decide) (by decide)

/-- C2: `_build_likelihood()` returns the sum over all data points and
output dimensions of `likelihood.variational_expectations(fmean, fvar,
Y)` where `(fmean, fvar)` is the model's own `_build_predict` at the
training inputs `X` with `full_cov=False`. -/
theorem build_likelihood_spec {Feat K Lik MF : Type}
    (conditional : Feat → K → Mat → Mat → Bool → Option Mat → Bool → Mat × Mat)
    (apply_mf : MF → Mat → Mat) (ve : Lik → Mat → Mat → Mat → Mat)
    (m : SGPMC Feat K Lik MF) (L : Nat)
    (hL : ∀ row ∈ ve m.likelihood
        (SGPMC.build_predict conditional apply_mf m m.X false).1
        (SGPMC.build_predict conditional apply_mf m m.X false).2 m.Y,
      row.length = L) :
    SGPMC.build_likelihood conditional apply_mf ve m =
      ∑ i ∈ Finset.range (ve m.likelihood
          (SGPMC.build_predict conditional apply_mf m m.X false).1
          (SGPMC.build_predict conditional apply_mf m m.X false).2 m.Y).length,
        ∑ j ∈ Finset.range L,
          entry (ve m.likelihood
            (SGPMC.build_predict conditional apply_mf m m.X false).1
            (SGPMC.build_predict conditional apply_mf m m.X false).2 m.Y) i j :=
  reduce_sum_eq_double_sum _ L hL

theorem build_likelihood_spec_witness :
    SGPMC.build_likelihood condTest mfTest veTest sgpmcTest =
      ∑ i ∈ Finset.range (veTest sgpmcTest.likelihood
          (SGPMC.build_predict condTest mfTest sgpmcTest sgpmcTest.X false).1
          (SGPMC.build_predict condTest mfTest sgpmcTest sgpmcTest.X false).2
          sgpmcTest.Y).length,
        ∑ j ∈ Finset.range 1,
          entry (veTest sgpmcTest.likelihood
            (SGPMC.build_predict condTest mfTest sgpmcTest sgpmcTest.X false).1
            (SGPMC.build_predict condTest mfTest sgpmcTest sgpmcTest.X false).2
            sgpmcTest.Y) i j :=
  build_likelihood_spec condTest mfTest veTest sgpmcTest 1 (by decide)

/-- C3: for every non-list value, `is_valid_param_value` returns true
iff the value is non-null and is a number, an ndarray, or a tensor; in
particular `is_valid_param_value(None)` is false despite the operator
precedence of the final boolean expression (the null-check
syntactically guards only the number branch, but `None` is neither an
ndarray nor a tensor, so the other branches cannot rescue it). -/
theorem is_valid_param_value_nonlist (v : PyValue) (h : is_list v = false) :
    (is_valid_param_value v = true ↔
      isNone v = false ∧ (is_number v || is_ndarray v || is_tensor v) = true) ∧
    is_valid_param_value PyValue.none = false := by
  refine ⟨?_, rfl⟩
  cases v <;>
    simp_all [is_valid_param_value, is_list, isNone, is_number,
      isinstance_str, np_isscalar, is_ndarray, is_tensor]

theorem is_valid_param_value_nonlist_witness :
    is_list (PyValue.int 3) = false ∧
    ((is_valid_param_value (PyValue.int 3) = true ↔
        isNone (PyValue.int 3) = false ∧
        (is_number (PyValue.int 3) || is_ndarray (PyValue.int 3) ||
          is_tensor (PyValue.int 3)) = true) ∧
      is_valid_param_value PyValue.none = false) :=
  ⟨rfl, is_valid_param_value_nonlist (PyValue.int 3) rfl⟩

/-- C4: on the empty list `is_valid_param_value` returns false; on a
non-empty list it returns true iff either the first element passes the
`(float, int)` scalar test and so does every remaining element, or
the first element passes the `(list, np.ndarray)` test and so does
every remaining element; any other first-element type yields false
(both iff-disjuncts fail). -/
theorem is_valid_param_value_list (z : PyValue) (rest : List PyValue) :
    is_valid_param_value (PyValue.list []) = false ∧
    (is_valid_param_value (PyValue.list (z :: rest)) = true ↔
      (isinstance_scalars z = true ∧ ∀ v ∈ rest, isinstance_scalars v = true) ∨
      (isinstance_arrays z = true ∧ ∀ v ∈ rest, isinstance_arrays v = true)) := by
  refine ⟨rfl, ?_⟩
  cases z <;>
    simp [is_valid_param_value, isinstance_scalars, isinstance_arrays,
      List.all_eq_true]

theorem is_valid_param_value_list_witness :
    is_valid_param_value (PyValue.list []) = false ∧
    is_valid_param_value (PyValue.list [PyValue.int 1, PyValue.float 2]) = true ∧
    is_valid_param_value (PyValue.list [PyValue.int 1, PyValue.ndarray]) = false := by
  refine ⟨(is_valid_param_value_list (PyValue.int 1) []).1, ?_, ?_⟩
  · exact (is_valid_param_value_list (PyValue.int 1) [PyValue.float 2]).2.mpr
      (Or.inl ⟨rfl, by intro v hv; cases hv with
        | head => rfl
        | tail _ hv => cases hv⟩)
  · rw [Bool.eq_false_iff]
    intro hcontra
    rcases (is_valid_param_value_list (PyValue.int 1) [PyValue.ndarray]).2.mp hcontra with
      ⟨_, hall⟩ | ⟨hz, _⟩
    · exact absurd (hall PyValue.ndarray (by simp)) (by simp [isinstance_scalars])
    · exact absurd hz (by simp [isinstance_arrays])

/-- C7: `normalize_num_type` returns the configured float type on
32/64-bit float inputs (native or TF-wrapped), the configured int type
on 16/32/64-bit signed int inputs (native or TF-wrapped), and fails
with an error message carrying the offending type's name in exactly
the remaining cases. -/
theorem normalize_num_type_spec (float_type int_type t : NumType) :
    ((t = NumType.float32 ∨ t = NumType.float64) →
      normalize_num_type float_type int_type (DTypeDescr.native t) = Except.ok float_type ∧
      normalize_num_type float_type int_type (DTypeDescr.tfWrapped t) = Except.ok float_type) ∧
    ((t = NumType.int16 ∨ t = NumType.int32 ∨ t = NumType.int64) →
      normalize_num_type float_type int_type (DTypeDescr.native t) = Except.ok int_type ∧
      normalize_num_type float_type int_type (DTypeDescr.tfWrapped t) = Except.ok int_type) ∧
    (¬(t = NumType.float32 ∨ t = NumType.float64 ∨ t = NumType.int16 ∨
        t = NumType.int32 ∨ t = NumType.int64) ↔
      normalize_num_type float_type int_type (DTypeDescr.native t) =
        Except.error ("Unknown dtype \"" ++ numTypeName t ++ "\" passed to normalizer.") ∧
      normalize_num_type float_type int_type (DTypeDescr.tfWrapped t) =
        Except.error ("Unknown dtype \"" ++ numTypeName t ++ "\" passed to normalizer.")) := by
  cases t <;> simp [normalize_num_type, unwrapDType, numTypeName]

theorem normalize_num_type_spec_witness :
    normalize_num_type NumType.float64 NumType.int32
        (DTypeDescr.tfWrapped NumType.float32) = Except.ok NumType.float64 ∧
    normalize_num_type NumType.float64 NumType.int32
        (DTypeDescr.native NumType.int16) = Except.ok NumType.int32 ∧
    normalize_num_type NumType.float64 NumType.int32
        (DTypeDescr.native NumType.complex64) =
      Except.error ("Unknown dtype \"complex64\" passed to normalizer.") :=
  ⟨((normalize_num_type_spec NumType.float64 NumType.int32 NumType.float32).1
      (Or.inl rfl)).2,
   ((normalize_num_type_spec NumType.float64 NumType.int32 NumType.int16).2.1
      (Or.inl rfl)).1,
   (((normalize_num_type_spec NumType.float64 NumType.int32 NumType.complex64).2.2).mp
      (by decide)).1⟩

/-- C8: after `SGPMC.__init__`, the latent parameter `V` has one row
per inducing point (`len(feature)` rows), each row of length
`num_latent` and all zero; its prior is `Gaussian(0., 1.)` (mean 0,
variance 1); it is appended at the end of the model's parameter list;
and when `num_latent` is not overridden it defaults to the number of
columns of `Y`. -/
theorem sgpmc_init_V {Feat K Lik MF : Type} (X Y : Mat) (kern : K)
    (likelihood : Lik) (mean_function : MF) (feat : Feat) (lenFeat : Feat → Nat)
    (num_latent : Option Nat) (base_parameters : List Parameter) :
    (SGPMC.V (SGPMC.init X Y kern likelihood mean_function feat lenFeat
        num_latent base_parameters)).length = lenFeat feat ∧
    (∀ row ∈ SGPMC.V (SGPMC.init X Y kern likelihood mean_function feat lenFeat
        num_latent base_parameters),
      row.length = (SGPMC.init X Y kern likelihood mean_function feat lenFeat
        num_latent base_parameters).num_latent ∧ ∀ x ∈ row, x = 0) ∧
    (SGPMC.init X Y kern likelihood mean_function feat lenFeat
        num_latent base_parameters).V_param.prior =
      Option.some { mu := 0, var := 1 } ∧
    (SGPMC.init X Y kern likelihood mean_function feat lenFeat
        num_latent base_parameters).parameters =
      base_parameters ++
        [(SGPMC.init X Y kern likelihood mean_function feat lenFeat
            num_latent base_parameters).V_param] ∧
    (num_latent = Option.none →
      (SGPMC.init X Y kern likelihood mean_function feat lenFeat
          num_latent base_parameters).num_latent = (Y.headD []).length) := by
  refine ⟨?_, ?_, rfl, rfl, ?_⟩
  · simp [SGPMC.init, SGPMC.V, zerosMat]
  · intro row hrow
    simp only [SGPMC.init, SGPMC.V, zerosMat] at hrow ⊢
    rcases List.eq_of_mem_replicate hrow with rfl
    exact ⟨List.length_replicate _ _, fun x hx => List.eq_of_mem_replicate hx⟩
  · rintro rfl
    rfl

theorem sgpmc_init_V_witness :
    (SGPMC.V (@SGPMC.init Nat Unit Unit Unit
        [[1, 2]] [[3, 4], [5, 6]] () () () 7 (fun M => M) Option.none [])).length = 7 ∧
    (@SGPMC.init Nat Unit Unit Unit
        [[1, 2]] [[3, 4], [5, 6]] () () () 7 (fun M => M) Option.none []).num_latent = 2 :=
  ⟨(sgpmc_init_V [[1, 2]] [[3, 4], [5, 6]] () () () 7 (fun M => M) Option.none []).1,
   (sgpmc_init_V [[1, 2]] [[3, 4], [5, 6]] () () () 7 (fun M => M)
      Option.none []).2.2.2.2 rfl⟩

/-- C9: the likelihood computation is deterministic and reads but does
not mutate model state: threading the state through two successive
calls, both calls return the same result and the state after each call
is the initial state. -/
theorem compute_likelihood_deterministic {Feat K Lik MF : Type}
    (conditional : Feat → K → Mat → Mat → Bool → Option Mat → Bool → Mat × Mat)
    (apply_mf : MF → Mat → Mat) (ve : Lik → Mat → Mat → Mat → Mat)
    (m : SGPMC Feat K Lik MF) :
    (SGPMC.compute_likelihood_call conditional apply_mf ve
        (SGPMC.compute_likelihood_call conditional apply_mf ve m).2).1 =
      (SGPMC.compute_likelihood_call conditional apply_mf ve m).1 ∧
    (SGPMC.compute_likelihood_call conditional apply_mf ve m).2 = m ∧
    (SGPMC.compute_likelihood_call conditional apply_mf ve
        (SGPMC.compute_likelihood_call conditional apply_mf ve m).2).2 = m :=
  ⟨rfl, rfl, rfl⟩

/-- C10: `num_latent = num_latent or Y.shape[1]` means an explicit but
falsy override (`num_latent=0`) is silently replaced by the number of
columns of `Y`, exactly as when no override is given, while a truthy
(nonzero) override takes effect. -/
theorem sgpmc_num_latent_truthy {Feat K Lik MF : Type} (X Y : Mat) (kern : K)
    (likelihood : Lik) (mean_function : MF) (feat : Feat) (lenFeat : Feat → Nat)
    (base_parameters : List Parameter) :
    (SGPMC.init X Y kern likelihood mean_function feat lenFeat
        (Option.some 0) base_parameters).num_latent = (Y.headD []).length ∧
    (SGPMC.init X Y kern likelihood mean_function feat lenFeat
        Option.none base_parameters).num_latent = (Y.headD []).length ∧
    (∀ n : Nat, n ≠ 0 →
      (SGPMC.init X Y kern likelihood mean_function feat lenFeat
          (Option.some n) base_parameters).num_latent = n) := by
  refine ⟨rfl, rfl, ?_⟩
  intro n hn
  simp [SGPMC.init, hn]

theorem sgpmc_num_latent_truthy_witness :
    (@SGPMC.init Unit Unit Unit Unit
        [[1]] [[3, 4, 5]] () () () () (fun _ => 2) (Option.some 0) []).num_latent = 3 ∧
    (@SGPMC.init Unit Unit Unit Unit
        [[1]] [[3, 4, 5]] () () () () (fun _ => 2) (Option.some 9) []).num_latent = 9 :=
  ⟨(sgpmc_num_latent_truthy [[1]] [[3, 4, 5]] () () () () (fun _ => 2) []).1,
   (sgpmc_num_latent_truthy [[1]] [[3, 4, 5]] () () () () (fun _ => 2) []).2.2 9
      (by decide)⟩

end GPflow
